import Mathlib

/-!
Shallow embedding of `skgpu::graphite::RenderPassTask`
(src/gpu/graphite/task/RenderPassTask.cpp).

The task's external collaborators (resource provider, scratch resource
manager, draw passes, command buffer, caps) are modelled as oracle
functions gathered in environment structures, and every interaction the
task performs with a collaborator is recorded in an explicit event trace.
`SkASSERT` is modelled as an `assertViolation` outcome: in a debug build
the assertion aborts, so a run that trips an assertion never produces a
status.
-/

namespace RenderPassModel

/-- Integer size, mirroring `SkISize` (width/height). -/
structure SkISize where
  width : Int
  height : Int
deriving DecidableEq

/-- Integer vector, mirroring `SkIVector`, used for the replay translation. -/
structure SkIVector where
  fX : Int
  fY : Int
deriving DecidableEq

/-- Rectangle, mirroring `SkRect` as used here (constructed from an `SkISize`). -/
structure SkRect where
  fLeft : Int
  fTop : Int
  fRight : Int
  fBottom : Int
deriving DecidableEq

/-- Mirrors `SkRect::Make(SkISize)`: the rectangle from (0,0) to (w,h). -/
def SkRect.Make (s : SkISize) : SkRect := ⟨0, 0, s.width, s.height⟩

/-- The slice of `TextureInfo` the task reads: validity and sample count. -/
structure TextureInfo where
  fValid : Bool
  fNumSamples : Nat
deriving DecidableEq

/-- Mirrors `TextureInfo::isValid()`. -/
def TextureInfo.isValid (i : TextureInfo) : Bool := i.fValid

/-- Mirrors `TextureInfo::numSamples()`. -/
def TextureInfo.numSamples (i : TextureInfo) : Nat := i.fNumSamples

/-- The slice of `RenderPassDesc`'s attachment descriptors that the task
reads: only the `fTextureInfo` member is consulted in this file. -/
structure AttachmentDesc where
  fTextureInfo : TextureInfo
deriving DecidableEq

/-- Mirrors the fields of `RenderPassDesc` read by `RenderPassTask`. -/
structure RenderPassDesc where
  fColorAttachment : AttachmentDesc
  fColorResolveAttachment : AttachmentDesc
  fDepthStencilAttachment : AttachmentDesc
  fSampleCount : Nat
deriving DecidableEq

/-- A live GPU texture (`Texture`). `id` stands for the object identity
(the C++ pointer) so that pointer comparisons can be expressed; the task
also reads the texture's `textureInfo()`. -/
structure Texture where
  id : Nat
  textureInfo : TextureInfo
deriving DecidableEq

/-- The slice of `TextureProxy` the task reads: `dimensions()`,
`numSamples()`, and the instantiation state (`isInstantiated()` /
`texture()`). `instantiated = some t` means the proxy is instantiated
with live texture `t`. -/
structure TextureProxy where
  dimensions : SkISize
  numSamples : Nat
  instantiated : Option Texture
deriving DecidableEq

/-- Mirrors `TextureProxy::isInstantiated()`. -/
def TextureProxy.isInstantiated (p : TextureProxy) : Bool := p.instantiated.isSome

/-- A draw pass, identified abstractly; its behaviour (the result of
`DrawPass::prepareResources`) lives in the environment. -/
abbrev DrawPass := Nat

/-- Mirrors `Task::Status` (the values produced in this file are
`kSuccess` and `kFail`). -/
inductive Status where
  | kSuccess
  | kFail
  | kDiscard
deriving DecidableEq

/-- The task object: one draw-pass list, a copied descriptor, the target. -/
structure RenderPassTask where
  fDrawPasses : List DrawPass
  fRenderPassDesc : RenderPassDesc
  fTarget : TextureProxy
deriving DecidableEq

/-- Outcome of `RenderPassTask::Make`: a tripped `SkASSERT`
(`assertViolation`), a null return, or a constructed task. -/
inductive MakeResult where
  | assertViolation
  | null
  | task (t : RenderPassTask)
deriving DecidableEq

/-- Mirrors `RenderPassTask::Make`:
`SkASSERT(passes.size() == 1)`; null target returns `nullptr`;
if the color attachment info is valid,
`SkASSERT(fSampleCount == color.numSamples() || 1 == color.numSamples())`;
if the depth-stencil info is valid,
`SkASSERT(fSampleCount == depthStencil.numSamples())`;
otherwise the task is constructed. -/
def RenderPassTask.Make (passes : List DrawPass) (desc : RenderPassDesc)
    (target : Option TextureProxy) : MakeResult :=
  if passes.length = 1 then
    match target with
    | none => .null
    | some tgt =>
      if desc.fColorAttachment.fTextureInfo.isValid = true ∧
          ¬ (desc.fSampleCount = desc.fColorAttachment.fTextureInfo.numSamples ∨
             1 = desc.fColorAttachment.fTextureInfo.numSamples) then
        .assertViolation
      else if desc.fDepthStencilAttachment.fTextureInfo.isValid = true ∧
          ¬ desc.fSampleCount = desc.fDepthStencilAttachment.fTextureInfo.numSamples then
        .assertViolation
      else
        .task ⟨passes, desc, tgt⟩
  else .assertViolation

/-! ## Resource preparation (`RenderPassTask::prepareResources`) -/

/-- Oracle results of the collaborators consulted by `prepareResources`:
the result of `TextureProxy::InstantiateIfNotLazy` on the target, and the
result of `DrawPass::prepareResources` for each draw pass. -/
structure PrepEnv where
  instantiateTarget : Bool
  prepareDrawPass : DrawPass → Bool

/-- Events `prepareResources` performs on its collaborators, in order. -/
inductive PrepEvent where
  | instantiate (ok : Bool)
  | batchPrepare (p : DrawPass) (ok : Bool)
  | notifyConsumed
deriving DecidableEq

/-- Outcome of `prepareResources`: a tripped `SkASSERT` or a `Status`. -/
inductive PrepOutcome where
  | assertViolation
  | done (s : Status)
deriving DecidableEq

/-- The loop over `fDrawPasses`: calls `DrawPass::prepareResources` on each
pass, stopping at the first failure. Returns whether all succeeded and the
trace of batch-preparation calls made. -/
def prepLoop (env : PrepEnv) : List DrawPass → Bool × List PrepEvent
  | [] => (true, [])
  | p :: rest =>
    if env.prepareDrawPass p then
      let r := prepLoop env rest
      (r.1, .batchPrepare p true :: r.2)
    else (false, [.batchPrepare p false])

/-- Mirrors `RenderPassTask::prepareResources`:
instantiate the non-lazy target (failure returns `kFail`);
`SkASSERT(fDrawPasses.size() == 1)`; prepare each draw pass (failure
returns `kFail`); on success call
`ScratchResourceManager::notifyResourcesConsumed()` and return `kSuccess`. -/
def RenderPassTask.prepareResources (env : PrepEnv) (task : RenderPassTask) :
    PrepOutcome × List PrepEvent :=
  if env.instantiateTarget then
    if task.fDrawPasses.length = 1 then
      let r := prepLoop env task.fDrawPasses
      if r.1 then
        (.done .kSuccess, .instantiate true :: r.2 ++ [.notifyConsumed])
      else
        (.done .kFail, .instantiate true :: r.2)
    else (.assertViolation, [.instantiate true])
  else (.done .kFail, [.instantiate false])

/-- Number of `notifyConsumed` events in a preparation trace. -/
def countNotify : List PrepEvent → Nat
  | [] => 0
  | e :: r => (match e with | .notifyConsumed => 1 | _ => 0) + countNotify r

/-! ## Command emission (`RenderPassTask::addCommands`) -/

/-- Mirrors `ReplayTargetData`: the replay target's live-texture identity
(a possibly null `Texture*`) and the translation offset. -/
structure ReplayTargetData where
  fTarget : Option Texture
  fTranslation : SkIVector
deriving DecidableEq

/-- The argument bundle of `CommandBuffer::addRenderPass`. -/
structure RenderPassCommand where
  fDesc : RenderPassDesc
  fColorAttachment : Texture
  fResolveAttachment : Option Texture
  fDepthStencilAttachment : Option Texture
  fViewport : SkRect
  fDrawPasses : List DrawPass
deriving DecidableEq

/-- Oracle results of the collaborators consulted by `addCommands`:
`ResourceProvider::findOrCreateDiscardableMSAAAttachment`,
`ResourceProvider::findOrCreateDepthStencilAttachment`,
`Caps::getDepthAttachmentDimensions`, and the boolean result of
`CommandBuffer::addRenderPass`. -/
structure EmitEnv where
  findOrCreateDiscardableMSAAAttachment : SkISize → TextureInfo → Option Texture
  findOrCreateDepthStencilAttachment : SkISize → TextureInfo → Option Texture
  getDepthAttachmentDimensions : TextureInfo → SkISize → SkISize
  addRenderPass : RenderPassCommand → Bool

/-- Events `addCommands` performs on its collaborators, in order. -/
inductive EmitEvent where
  | setReplayTranslation (t : SkIVector)
  | clearReplayTranslation
  | requestMSAA (dims : SkISize) (info : TextureInfo)
  | requestDepthStencil (dims : SkISize) (info : TextureInfo)
  | addRenderPass (c : RenderPassCommand)
deriving DecidableEq

/-- Outcome of `addCommands`: a tripped `SkASSERT` or a `Status`. -/
inductive EmitOutcome where
  | assertViolation
  | done (s : Status)
deriving DecidableEq

/-- The final step of `addCommands`: build the `addRenderPass` argument
bundle (viewport is `SkRect::Make(fTarget->dimensions())`) and pass the
recorder's boolean result through as `kSuccess`/`kFail`. -/
def RenderPassTask.submitRenderPass (env : EmitEnv) (task : RenderPassTask)
    (color : Texture) (resolve depthStencil : Option Texture)
    (pre : List EmitEvent) : EmitOutcome × List EmitEvent :=
  let cmd : RenderPassCommand :=
    ⟨task.fRenderPassDesc, color, resolve, depthStencil,
      SkRect.Make task.fTarget.dimensions, task.fDrawPasses⟩
  (if env.addRenderPass cmd then .done .kSuccess else .done .kFail,
   pre ++ [.addRenderPass cmd])

/-- The depth-stencil step of `addCommands`: if the depth-stencil info is
valid, compute the dimensions via the caps from the live texture's info and
the target's dimensions, then find-or-create the attachment (failure
returns `kFail`); then submit. -/
def RenderPassTask.depthStencilStep (env : EmitEnv) (task : RenderPassTask)
    (tex color : Texture) (resolve : Option Texture)
    (pre : List EmitEvent) : EmitOutcome × List EmitEvent :=
  if task.fRenderPassDesc.fDepthStencilAttachment.fTextureInfo.isValid then
    let dims := env.getDepthAttachmentDimensions tex.textureInfo task.fTarget.dimensions
    let info := task.fRenderPassDesc.fDepthStencilAttachment.fTextureInfo
    match env.findOrCreateDepthStencilAttachment dims info with
    | none => (.done .kFail, pre ++ [.requestDepthStencil dims info])
    | some ds =>
      task.submitRenderPass env color resolve (some ds)
        (pre ++ [.requestDepthStencil dims info])
  else
    task.submitRenderPass env color resolve none pre

/-- The recorder call of step 1 of `addCommands`: `setReplayTranslation`
when `fTarget->texture() == replayData.fTarget`, else
`clearReplayTranslation`. -/
def replayEvent (tex : Texture) (replayData : ReplayTargetData) : EmitEvent :=
  if some tex = replayData.fTarget then
    .setReplayTranslation replayData.fTranslation
  else
    .clearReplayTranslation

/-- The body of `addCommands` once the instantiated target texture `tex`
is in hand: set or clear the replay translation; if the resolve attachment
info is valid, `SkASSERT(fTarget->numSamples() == 1 && color.numSamples() > 1)`,
find-or-create the discardable MSAA color attachment at the target's
dimensions (failure returns `kFail`) and use the target's texture as the
resolve attachment; otherwise the target's texture is the color
attachment; then the depth-stencil step and submission. -/
def RenderPassTask.emitWithTexture (env : EmitEnv) (task : RenderPassTask)
    (replayData : ReplayTargetData) (tex : Texture) : EmitOutcome × List EmitEvent :=
  if task.fRenderPassDesc.fColorResolveAttachment.fTextureInfo.isValid then
    if task.fTarget.numSamples = 1 ∧
        task.fRenderPassDesc.fColorAttachment.fTextureInfo.numSamples > 1 then
      match env.findOrCreateDiscardableMSAAAttachment task.fTarget.dimensions
          task.fRenderPassDesc.fColorAttachment.fTextureInfo with
      | none =>
        (.done .kFail,
         [replayEvent tex replayData,
          .requestMSAA task.fTarget.dimensions
            task.fRenderPassDesc.fColorAttachment.fTextureInfo])
      | some ca =>
        task.depthStencilStep env tex ca (some tex)
          [replayEvent tex replayData,
           .requestMSAA task.fTarget.dimensions
             task.fRenderPassDesc.fColorAttachment.fTextureInfo]
    else (.assertViolation, [replayEvent tex replayData])
  else
    task.depthStencilStep env tex tex none [replayEvent tex replayData]

/-- Mirrors `RenderPassTask::addCommands`:
`SkASSERT(fTarget && fTarget->isInstantiated())` (an uninstantiated target
trips the assertion), then the body above on the live target texture. -/
def RenderPassTask.addCommands (env : EmitEnv) (task : RenderPassTask)
    (replayData : ReplayTargetData) : EmitOutcome × List EmitEvent :=
  match task.fTarget.instantiated with
  | none => (.assertViolation, [])
  | some tex => task.emitWithTexture env replayData tex

/-- The `addRenderPass` argument bundles appearing in an emission trace. -/
def submissions : List EmitEvent → List RenderPassCommand
  | [] => []
  | e :: r => (match e with | .addRenderPass c => [c] | _ => []) ++ submissions r

/-! ## Concrete fixtures used by counterexamples and witnesses -/

/-- A concrete render pass descriptor: valid single-sample color info,
invalid resolve info, invalid depth-stencil info, pass sample count 4. -/
def descSingleSampleNoResolve : RenderPassDesc :=
  ⟨⟨⟨true, 1⟩⟩, ⟨⟨false, 0⟩⟩, ⟨⟨false, 0⟩⟩, 4⟩

/-- A concrete uninstantiated single-sample 8x8 target proxy. -/
def proxySingleSample : TextureProxy := ⟨⟨8, 8⟩, 1, none⟩

/-! ## Construction claims -/

/-- C1 counterexample: for the construction attempt with a valid color
descriptor of sample count 1, an invalid (absent) resolve descriptor, and
pass sample count 4 > 1, `Make` silently accepts and returns a task — it
does not trip an assertion, contradicting the claim that such a
construction is rejected as a programming error. -/
theorem Make_single_sample_no_resolve_counterexample :
    RenderPassTask.Make [0] descSingleSampleNoResolve (some proxySingleSample) =
      .task ⟨[0], descSingleSampleNoResolve, proxySingleSample⟩ := by
  decide

/-- C1 amended: when the color attachment descriptor is valid with sample
count 1, the color sample-count assertion in `Make` passes no matter
whether a resolve descriptor is present or what the pass sample count is;
with one draw pass, a non-null target, and a depth-stencil descriptor that
is invalid or matches the pass sample count, construction is silently
accepted (a task is returned). -/
theorem Make_single_sample_color_accepted
    (passes : List DrawPass) (desc : RenderPassDesc) (tgt : TextureProxy)
    (hp : passes.length = 1)
    (hcs : desc.fColorAttachment.fTextureInfo.numSamples = 1)
    (hres : desc.fColorResolveAttachment.fTextureInfo.isValid = false)
    (hsc : 1 < desc.fSampleCount)
    (hds : desc.fDepthStencilAttachment.fTextureInfo.isValid = true →
      desc.fSampleCount = desc.fDepthStencilAttachment.fTextureInfo.numSamples) :
    RenderPassTask.Make passes desc (some tgt) = .task ⟨passes, desc, tgt⟩ := by
  unfold RenderPassTask.Make
  rw [if_pos hp]
  dsimp only
  rw [if_neg (fun h => h.2 (Or.inr hcs.symm)), if_neg (fun h => h.2 (hds h.1))]

/-- C1 amended witness: the amended theorem applied at the concrete
single-sample-no-resolve fixture. -/
theorem Make_single_sample_color_accepted_witness :
    RenderPassTask.Make [0] descSingleSampleNoResolve (some proxySingleSample) =
      .task ⟨[0], descSingleSampleNoResolve, proxySingleSample⟩ :=
  Make_single_sample_color_accepted [0] descSingleSampleNoResolve proxySingleSample
    (by decide) (by decide) (by decide) (by decide) (by decide)

/-- C7: for every construction attempt with one draw pass and an empty
(null) target handle, `Make` returns null; in this model `Make` consults
no collaborator at all (it takes none), so no resource is touched. -/
theorem Make_null_target_returns_null
    (passes : List DrawPass) (desc : RenderPassDesc)
    (hp : passes.length = 1) :
    RenderPassTask.Make passes desc none = .null := by
  unfold RenderPassTask.Make
  rw [if_pos hp]

/-- C7 witness: `Make` at a concrete descriptor with a null target. -/
theorem Make_null_target_returns_null_witness :
    RenderPassTask.Make [0] descSingleSampleNoResolve none = .null :=
  Make_null_target_returns_null [0] descSingleSampleNoResolve (by decide)

/-- C8: for every construction attempt with one draw pass and a non-null
target where the depth-stencil descriptor is valid and its sample count
differs from the pass sample count, `Make` trips an assertion (a
programming-error rejection). -/
theorem Make_rejects_depth_stencil_mismatch
    (passes : List DrawPass) (desc : RenderPassDesc) (tgt : TextureProxy)
    (hp : passes.length = 1)
    (hds : desc.fDepthStencilAttachment.fTextureInfo.isValid = true)
    (hmm : desc.fSampleCount ≠ desc.fDepthStencilAttachment.fTextureInfo.numSamples) :
    RenderPassTask.Make passes desc (some tgt) = .assertViolation := by
  unfold RenderPassTask.Make
  rw [if_pos hp]
  dsimp only
  by_cases h1 : desc.fColorAttachment.fTextureInfo.isValid = true ∧
      ¬ (desc.fSampleCount = desc.fColorAttachment.fTextureInfo.numSamples ∨
         1 = desc.fColorAttachment.fTextureInfo.numSamples)
  · rw [if_pos h1]
  · rw [if_neg h1, if_pos ⟨hds, hmm⟩]

/-- C8 witness: pass sample count 4 with a valid depth-stencil descriptor
of sample count 1 is rejected by assertion (end-to-end scenario C). -/
theorem Make_rejects_depth_stencil_mismatch_witness :
    RenderPassTask.Make [0] ⟨⟨⟨true, 4⟩⟩, ⟨⟨false, 0⟩⟩, ⟨⟨true, 1⟩⟩, 4⟩
      (some proxySingleSample) = .assertViolation :=
  Make_rejects_depth_stencil_mismatch [0] _ proxySingleSample
    (by decide) (by decide) (by decide)

/-! ## Preparation claims -/

/-- `countNotify` distributes over list append. -/
theorem countNotify_append (l1 l2 : List PrepEvent) :
    countNotify (l1 ++ l2) = countNotify l1 + countNotify l2 := by
  induction l1 with
  | nil => simp [countNotify]
  | cons e r ih => simp [countNotify, ih]; omega

/-- The draw-pass loop succeeds exactly when every draw pass prepares. -/
theorem prepLoop_fst (env : PrepEnv) (l : List DrawPass) :
    (prepLoop env l).1 = true ↔ ∀ p ∈ l, env.prepareDrawPass p = true := by
  induction l with
  | nil => simp [prepLoop]
  | cons p r ih =>
    by_cases hp : env.prepareDrawPass p = true <;> simp [prepLoop, hp, ih]

/-- The draw-pass loop never notifies the scratch manager. -/
theorem prepLoop_countNotify (env : PrepEnv) (l : List DrawPass) :
    countNotify (prepLoop env l).2 = 0 := by
  induction l with
  | nil => simp [prepLoop, countNotify]
  | cons p r ih =>
    by_cases hp : env.prepareDrawPass p = true <;>
      simp [prepLoop, hp, countNotify, ih]

/-- C3: in every `prepareResources` call that returns a status, the
scratch manager's `notifyResourcesConsumed` appears exactly once in the
trace if and only if the status is `kSuccess`; a `kFail` status leaves the
scratch manager unnotified; and success holds exactly when target
instantiation and every draw-batch preparation succeeded. -/
theorem prepareResources_notify_iff_success
    (env : PrepEnv) (task : RenderPassTask) (st : Status) (tr : List PrepEvent)
    (h : task.prepareResources env = (.done st, tr)) :
    (countNotify tr = 1 ↔ st = .kSuccess) ∧
    (st = .kFail → countNotify tr = 0) ∧
    (st = .kSuccess ↔ (env.instantiateTarget = true ∧
      ∀ p ∈ task.fDrawPasses, env.prepareDrawPass p = true)) := by
  unfold RenderPassTask.prepareResources at h
  by_cases hi : env.instantiateTarget = true
  · rw [if_pos hi] at h
    by_cases hl : task.fDrawPasses.length = 1
    · rw [if_pos hl] at h
      dsimp only at h
      by_cases hr : (prepLoop env task.fDrawPasses).1 = true
      · rw [if_pos hr, Prod.mk.injEq] at h
        obtain ⟨hst, htr⟩ := h
        injection hst with hst
        subst hst
        subst htr
        refine ⟨?_, ?_, ?_⟩
        · simp [countNotify, countNotify_append, prepLoop_countNotify]
        · intro hk; cases hk
        · exact ⟨fun _ => ⟨hi, (prepLoop_fst env task.fDrawPasses).mp hr⟩,
            fun _ => rfl⟩
      · rw [if_neg hr, Prod.mk.injEq] at h
        obtain ⟨hst, htr⟩ := h
        injection hst with hst
        subst hst
        subst htr
        refine ⟨?_, ?_, ?_⟩
        · simp [countNotify, prepLoop_countNotify]
        · intro _; simp [countNotify, prepLoop_countNotify]
        · constructor
          · intro hk; cases hk
          · intro ⟨_, hall⟩
            exact absurd ((prepLoop_fst env task.fDrawPasses).mpr hall) hr
    · rw [if_neg hl] at h
      exact absurd (congrArg Prod.fst h) (by simp)
  · rw [if_neg hi, Prod.mk.injEq] at h
    obtain ⟨hst, htr⟩ := h
    injection hst with hst
    subst hst
    subst htr
    refine ⟨?_, ?_, ?_⟩
    · simp [countNotify]
    · intro _; simp [countNotify]
    · constructor
      · intro hk; cases hk
      · intro ⟨hinst, _⟩; exact absurd hinst hi

/-- C3 witness: a concrete successful preparation (target instantiates,
the single draw pass prepares) notifies exactly once. -/
theorem prepareResources_notify_iff_success_witness :
    (countNotify [PrepEvent.instantiate true, PrepEvent.batchPrepare 0 true,
        PrepEvent.notifyConsumed] = 1 ↔ Status.kSuccess = Status.kSuccess) ∧
    (Status.kSuccess = Status.kFail →
      countNotify [PrepEvent.instantiate true, PrepEvent.batchPrepare 0 true,
        PrepEvent.notifyConsumed] = 0) ∧
    (Status.kSuccess = Status.kSuccess ↔
      ((⟨true, fun _ => true⟩ : PrepEnv).instantiateTarget = true ∧
        ∀ p ∈ (⟨[0], descSingleSampleNoResolve, proxySingleSample⟩ :
            RenderPassTask).fDrawPasses,
          (⟨true, fun _ => true⟩ : PrepEnv).prepareDrawPass p = true)) :=
  prepareResources_notify_iff_success ⟨true, fun _ => true⟩
    ⟨[0], descSingleSampleNoResolve, proxySingleSample⟩ .kSuccess
    [.instantiate true, .batchPrepare 0 true, .notifyConsumed] (by decide)

/-- C4: for every `prepareResources` call where instantiation of the
target fails, the call returns `kFail`, the trace is exactly the failed
instantiation, and in particular no draw-batch preparation is attempted
and the scratch manager is not notified. -/
theorem prepareResources_instantiation_failure
    (env : PrepEnv) (task : RenderPassTask)
    (h : env.instantiateTarget = false) :
    task.prepareResources env = (.done .kFail, [.instantiate false]) ∧
    (∀ p ok, PrepEvent.batchPrepare p ok ∉ (task.prepareResources env).2) ∧
    PrepEvent.notifyConsumed ∉ (task.prepareResources env).2 := by
  unfold RenderPassTask.prepareResources
  rw [if_neg (by simp [h])]
  refine ⟨rfl, ?_, ?_⟩ <;> simp

/-- C4 witness: a concrete environment whose instantiation fails. -/
theorem prepareResources_instantiation_failure_witness :
    (⟨[0], descSingleSampleNoResolve, proxySingleSample⟩ :
        RenderPassTask).prepareResources ⟨false, fun _ => true⟩ =
      (.done .kFail, [.instantiate false]) ∧
    (∀ p ok, PrepEvent.batchPrepare p ok ∉
      ((⟨[0], descSingleSampleNoResolve, proxySingleSample⟩ :
        RenderPassTask).prepareResources ⟨false, fun _ => true⟩).2) ∧
    PrepEvent.notifyConsumed ∉
      ((⟨[0], descSingleSampleNoResolve, proxySingleSample⟩ :
        RenderPassTask).prepareResources ⟨false, fun _ => true⟩).2 :=
  prepareResources_instantiation_failure ⟨false, fun _ => true⟩
    ⟨[0], descSingleSampleNoResolve, proxySingleSample⟩ rfl

/-! ## Emission helper lemmas -/

/-- `submissions` distributes over list append. -/
theorem submissions_append (l1 l2 : List EmitEvent) :
    submissions (l1 ++ l2) = submissions l1 ++ submissions l2 := by
  induction l1 with
  | nil => simp [submissions]
  | cons e r ih => simp [submissions, ih]

/-- A replay-translation event contributes no submission. -/
theorem submissions_replayEvent (tex : Texture) (rd : ReplayTargetData)
    (l : List EmitEvent) :
    submissions (replayEvent tex rd :: l) = submissions l := by
  unfold replayEvent
  split <;> simp [submissions]

/-- Step 1 always performs one of the two recorder mutations. -/
theorem replayEvent_cases (tex : Texture) (rd : ReplayTargetData) :
    replayEvent tex rd = .setReplayTranslation rd.fTranslation ∨
    replayEvent tex rd = .clearReplayTranslation := by
  unfold replayEvent
  split
  · exact Or.inl rfl
  · exact Or.inr rfl

/-- Closed form of the submission step. -/
theorem submitRenderPass_eq (env : EmitEnv) (task : RenderPassTask)
    (color : Texture) (resolve ds : Option Texture) (pre : List EmitEvent) :
    task.submitRenderPass env color resolve ds pre =
      (.done (if env.addRenderPass ⟨task.fRenderPassDesc, color, resolve, ds,
            SkRect.Make task.fTarget.dimensions, task.fDrawPasses⟩
          then Status.kSuccess else Status.kFail),
       pre ++ [.addRenderPass ⟨task.fRenderPassDesc, color, resolve, ds,
            SkRect.Make task.fTarget.dimensions, task.fDrawPasses⟩]) := by
  unfold RenderPassTask.submitRenderPass
  cases hb : env.addRenderPass ⟨task.fRenderPassDesc, color, resolve, ds,
      SkRect.Make task.fTarget.dimensions, task.fDrawPasses⟩ <;>
    simp [hb]

/-- The depth-stencil step only appends to the trace it is handed. -/
theorem depthStencilStep_head (env : EmitEnv) (task : RenderPassTask)
    (tex color : Texture) (resolve : Option Texture) (e : EmitEvent)
    (l : List EmitEvent) :
    ((task.depthStencilStep env tex color resolve (e :: l)).2).head? = some e := by
  unfold RenderPassTask.depthStencilStep
  split
  · dsimp only
    split
    · simp
    · rw [submitRenderPass_eq]
      simp
  · rw [submitRenderPass_eq]
    simp

/-- The depth-stencil step preserves membership in the prior trace. -/
theorem depthStencilStep_mem_pre (env : EmitEnv) (task : RenderPassTask)
    (tex color : Texture) (resolve : Option Texture) (pre : List EmitEvent)
    (e : EmitEvent) (he : e ∈ pre) :
    e ∈ (task.depthStencilStep env tex color resolve pre).2 := by
  unfold RenderPassTask.depthStencilStep
  split
  · dsimp only
    split
    · exact List.mem_append_left _ he
    · rw [submitRenderPass_eq]
      exact List.mem_append_left _ (List.mem_append_left _ he)
  · rw [submitRenderPass_eq]
    exact List.mem_append_left _ he

/-- Any submission produced by the depth-stencil step carries the color
and resolve attachments it was handed, the task's descriptor, the
full-target viewport, and the task's draw passes. -/
theorem depthStencilStep_submissions (env : EmitEnv) (task : RenderPassTask)
    (tex color : Texture) (resolve : Option Texture) (pre : List EmitEvent)
    (c : RenderPassCommand)
    (hc : c ∈ submissions (task.depthStencilStep env tex color resolve pre).2) :
    c ∈ submissions pre ∨
      (c.fDesc = task.fRenderPassDesc ∧ c.fColorAttachment = color ∧
       c.fResolveAttachment = resolve ∧
       c.fViewport = SkRect.Make task.fTarget.dimensions ∧
       c.fDrawPasses = task.fDrawPasses) := by
  unfold RenderPassTask.depthStencilStep at hc
  split at hc
  · dsimp only at hc
    split at hc
    · rw [submissions_append] at hc
      simp only [submissions, List.append_nil] at hc
      exact Or.inl hc
    · rw [submitRenderPass_eq, Prod.snd] at hc
      rw [submissions_append, submissions_append] at hc
      simp only [submissions, List.append_nil] at hc
      rcases List.mem_append.mp hc with h | h
      · exact Or.inl h
      · rcases List.mem_singleton.mp h with rfl
        exact Or.inr ⟨rfl, rfl, rfl, rfl, rfl⟩
  · rw [submitRenderPass_eq, Prod.snd] at hc
    rw [submissions_append] at hc
    simp only [submissions, List.append_nil] at hc
    rcases List.mem_append.mp hc with h | h
    · exact Or.inl h
    · rcases List.mem_singleton.mp h with rfl
      exact Or.inr ⟨rfl, rfl, rfl, rfl, rfl⟩

/-- If the depth-stencil step produced a submission, its outcome is the
recorder's boolean verdict on that submission, passed through. -/
theorem depthStencilStep_passthrough (env : EmitEnv) (task : RenderPassTask)
    (tex color : Texture) (resolve : Option Texture) (pre : List EmitEvent)
    (hpre : submissions pre = []) (c : RenderPassCommand)
    (hc : c ∈ submissions (task.depthStencilStep env tex color resolve pre).2) :
    (task.depthStencilStep env tex color resolve pre).1 =
      .done (if env.addRenderPass c then Status.kSuccess else Status.kFail) := by
  unfold RenderPassTask.depthStencilStep at hc ⊢
  split at hc
  · rename_i hds
    rw [if_pos hds]
    dsimp only at hc ⊢
    split at hc
    · rw [Prod.snd, submissions_append] at hc
      simp [submissions, hpre] at hc
    · rw [submitRenderPass_eq] at hc ⊢
      rw [Prod.snd, submissions_append, submissions_append] at hc
      simp only [submissions, List.append_nil, hpre, List.nil_append] at hc
      rcases List.mem_singleton.mp hc with rfl
      rfl
  · rename_i hds
    rw [if_neg hds]
    rw [submitRenderPass_eq] at hc ⊢
    rw [Prod.snd, submissions_append] at hc
    simp only [submissions, List.append_nil, hpre, List.nil_append] at hc
    rcases List.mem_singleton.mp hc with rfl
    rfl

/-- On an instantiated target, `addCommands` runs the emission body. -/
theorem addCommands_eq_emit (env : EmitEnv) (task : RenderPassTask)
    (rd : ReplayTargetData) (tex : Texture)
    (htex : task.fTarget.instantiated = some tex) :
    task.addCommands env rd = task.emitWithTexture env rd tex := by
  unfold RenderPassTask.addCommands
  rw [htex]

/-- The first recorder interaction of the emission body is always the
replay-translation mutation. -/
theorem emitWithTexture_head (env : EmitEnv) (task : RenderPassTask)
    (rd : ReplayTargetData) (tex : Texture) :
    ((task.emitWithTexture env rd tex).2).head? = some (replayEvent tex rd) := by
  unfold RenderPassTask.emitWithTexture
  split
  · split
    · split
      · simp
      · exact depthStencilStep_head ..
    · simp
  · exact depthStencilStep_head ..

/-! ## Emission fixtures -/

/-- A concrete single-sample live texture. -/
def texA : Texture := ⟨1, ⟨true, 1⟩⟩

/-- A concrete four-sample live texture, distinct from `texA`. -/
def texB : Texture := ⟨2, ⟨true, 4⟩⟩

/-- A concrete instantiated single-sample 8x8 target proxy backed by `texA`. -/
def proxyLive : TextureProxy := ⟨⟨8, 8⟩, 1, some texA⟩

/-- A concrete descriptor for multisample-render-to-single-sample: valid
4-sample color info, valid resolve info, invalid depth-stencil info. -/
def descResolve : RenderPassDesc := ⟨⟨⟨true, 4⟩⟩, ⟨⟨true, 1⟩⟩, ⟨⟨false, 0⟩⟩, 4⟩

/-- A concrete emission environment whose attachment providers fail. -/
def envAllFail : EmitEnv :=
  ⟨fun _ _ => none, fun _ _ => none, fun _ s => s, fun _ => true⟩

/-- A concrete emission environment whose attachment providers return
`texB` and whose recorder accepts every render pass. -/
def envProvide : EmitEnv :=
  ⟨fun _ _ => some texB, fun _ _ => some texB, fun _ s => s, fun _ => true⟩

/-- Concrete replay data whose target identity matches `texA`. -/
def rdMatch : ReplayTargetData := ⟨some texA, ⟨2, 3⟩⟩

/-! ## Emission claims -/

/-- C5: for every emission on an instantiated target, if the target's live
texture identity equals the replay data's target identity the recorder's
first mutation is `setReplayTranslation` with the supplied offset, and
otherwise it is `clearReplayTranslation`. -/
theorem addCommands_replay_translation (env : EmitEnv) (task : RenderPassTask)
    (rd : ReplayTargetData) (tex : Texture)
    (htex : task.fTarget.instantiated = some tex) :
    (some tex = rd.fTarget →
      ((task.addCommands env rd).2).head? =
        some (.setReplayTranslation rd.fTranslation)) ∧
    (¬ some tex = rd.fTarget →
      ((task.addCommands env rd).2).head? = some .clearReplayTranslation) := by
  rw [addCommands_eq_emit env task rd tex htex]
  constructor <;> intro hm <;> rw [emitWithTexture_head] <;> unfold replayEvent
  · rw [if_pos hm]
  · rw [if_neg hm]

/-- C5 witness: with the live target `texA` and matching replay data, the
first recorder mutation sets the translation. -/
theorem addCommands_replay_translation_witness :
    (some texA = rdMatch.fTarget →
      (((⟨[0], descSingleSampleNoResolve, proxyLive⟩ :
          RenderPassTask).addCommands envProvide rdMatch).2).head? =
        some (.setReplayTranslation rdMatch.fTranslation)) ∧
    (¬ some texA = rdMatch.fTarget →
      (((⟨[0], descSingleSampleNoResolve, proxyLive⟩ :
          RenderPassTask).addCommands envProvide rdMatch).2).head? =
        some .clearReplayTranslation) :=
  addCommands_replay_translation envProvide
    ⟨[0], descSingleSampleNoResolve, proxyLive⟩ rdMatch texA rfl

/-- C2: for every emission on an instantiated single-sample target with a
valid resolve descriptor and a multisampled color descriptor, the task
requests a discardable MSAA color attachment sized exactly to the target's
dimensions, and every render pass submitted carries the target's live
texture as the resolve attachment while its color attachment is exactly
the texture the discardable-attachment provider returned (so the target's
texture is the color attachment only if the provider itself returned it). -/
theorem addCommands_resolve_valid (env : EmitEnv) (task : RenderPassTask)
    (rd : ReplayTargetData) (tex : Texture)
    (htex : task.fTarget.instantiated = some tex)
    (hres : task.fRenderPassDesc.fColorResolveAttachment.fTextureInfo.isValid = true)
    (hns : task.fTarget.numSamples = 1)
    (hcs : task.fRenderPassDesc.fColorAttachment.fTextureInfo.numSamples > 1) :
    EmitEvent.requestMSAA task.fTarget.dimensions
        task.fRenderPassDesc.fColorAttachment.fTextureInfo ∈
      (task.addCommands env rd).2 ∧
    ∀ c ∈ submissions (task.addCommands env rd).2,
      c.fResolveAttachment = some tex ∧
      env.findOrCreateDiscardableMSAAAttachment task.fTarget.dimensions
          task.fRenderPassDesc.fColorAttachment.fTextureInfo =
        some c.fColorAttachment ∧
      (c.fColorAttachment = tex →
        env.findOrCreateDiscardableMSAAAttachment task.fTarget.dimensions
          task.fRenderPassDesc.fColorAttachment.fTextureInfo = some tex) := by
  rw [addCommands_eq_emit env task rd tex htex]
  unfold RenderPassTask.emitWithTexture
  rw [if_pos hres, if_pos ⟨hns, hcs⟩]
  cases hfind : env.findOrCreateDiscardableMSAAAttachment task.fTarget.dimensions
      task.fRenderPassDesc.fColorAttachment.fTextureInfo with
  | none =>
    dsimp only
    constructor
    · simp
    · intro c hc
      rw [submissions_replayEvent] at hc
      simp [submissions] at hc
  | some ca =>
    dsimp only
    constructor
    · exact depthStencilStep_mem_pre env task tex ca (some tex) _ _ (by simp)
    · intro c hc
      rcases depthStencilStep_submissions env task tex ca (some tex) _ c hc with
        h | ⟨_, hcol, hresv, _, _⟩
      · rw [submissions_replayEvent] at h
        simp [submissions] at h
      · subst hcol
        exact ⟨hresv, rfl, fun he => by rw [he]⟩

/-- C2 witness: the resolve-valid emission at a concrete task and provider
requests the 8x8 discardable attachment and resolves into `texA`. -/
theorem addCommands_resolve_valid_witness :
    EmitEvent.requestMSAA (⟨[0], descResolve, proxyLive⟩ :
        RenderPassTask).fTarget.dimensions
        (⟨[0], descResolve, proxyLive⟩ :
        RenderPassTask).fRenderPassDesc.fColorAttachment.fTextureInfo ∈
      ((⟨[0], descResolve, proxyLive⟩ :
        RenderPassTask).addCommands envProvide rdMatch).2 ∧
    ∀ c ∈ submissions ((⟨[0], descResolve, proxyLive⟩ :
        RenderPassTask).addCommands envProvide rdMatch).2,
      c.fResolveAttachment = some texA ∧
      envProvide.findOrCreateDiscardableMSAAAttachment
          (⟨[0], descResolve, proxyLive⟩ : RenderPassTask).fTarget.dimensions
          (⟨[0], descResolve, proxyLive⟩ :
            RenderPassTask).fRenderPassDesc.fColorAttachment.fTextureInfo =
        some c.fColorAttachment ∧
      (c.fColorAttachment = texA →
        envProvide.findOrCreateDiscardableMSAAAttachment
          (⟨[0], descResolve, proxyLive⟩ : RenderPassTask).fTarget.dimensions
          (⟨[0], descResolve, proxyLive⟩ :
            RenderPassTask).fRenderPassDesc.fColorAttachment.fTextureInfo =
          some texA) :=
  addCommands_resolve_valid envProvide ⟨[0], descResolve, proxyLive⟩ rdMatch
    texA rfl (by decide) (by decide) (by decide)

/-- C6: for every emission on an instantiated target whose resolve and
depth-stencil descriptors are both invalid (scenario A), the emitted
trace is exactly the replay-translation mutation followed by one
`addRenderPass` whose color attachment is the target's live texture, whose
resolve and depth-stencil attachments are absent, and whose viewport is
the full target rectangle; the status is the recorder's verdict. -/
theorem addCommands_scenario_A (env : EmitEnv) (task : RenderPassTask)
    (rd : ReplayTargetData) (tex : Texture)
    (htex : task.fTarget.instantiated = some tex)
    (hres : task.fRenderPassDesc.fColorResolveAttachment.fTextureInfo.isValid = false)
    (hds : task.fRenderPassDesc.fDepthStencilAttachment.fTextureInfo.isValid = false) :
    task.addCommands env rd =
      (.done (if env.addRenderPass ⟨task.fRenderPassDesc, tex, none, none,
            SkRect.Make task.fTarget.dimensions, task.fDrawPasses⟩
          then Status.kSuccess else Status.kFail),
       [replayEvent tex rd,
        .addRenderPass ⟨task.fRenderPassDesc, tex, none, none,
          SkRect.Make task.fTarget.dimensions, task.fDrawPasses⟩]) := by
  rw [addCommands_eq_emit env task rd tex htex]
  unfold RenderPassTask.emitWithTexture RenderPassTask.depthStencilStep
  rw [if_neg (by simp [hres]), if_neg (by simp [hds]), submitRenderPass_eq]
  simp

/-- C6 witness: scenario A at a concrete task and recorder. -/
theorem addCommands_scenario_A_witness :
    (⟨[0], descSingleSampleNoResolve, proxyLive⟩ :
        RenderPassTask).addCommands envProvide rdMatch =
      (.done (if envProvide.addRenderPass ⟨descSingleSampleNoResolve, texA,
            none, none, SkRect.Make proxyLive.dimensions, [0]⟩
          then Status.kSuccess else Status.kFail),
       [replayEvent texA rdMatch,
        .addRenderPass ⟨descSingleSampleNoResolve, texA, none, none,
          SkRect.Make proxyLive.dimensions, [0]⟩]) :=
  addCommands_scenario_A envProvide ⟨[0], descSingleSampleNoResolve, proxyLive⟩
    rdMatch texA rfl (by decide) (by decide)

/-- C9: for every emission that reaches the final submission step (some
render pass command appears in the trace), the task's outcome is exactly
the recorder's boolean verdict on that command, passed through: `true`
yields `kSuccess` and `false` yields `kFail`. -/
theorem addCommands_status_passthrough (env : EmitEnv) (task : RenderPassTask)
    (rd : ReplayTargetData) (c : RenderPassCommand)
    (hc : c ∈ submissions (task.addCommands env rd).2) :
    (task.addCommands env rd).1 =
      .done (if env.addRenderPass c then Status.kSuccess else Status.kFail) := by
  cases htex : task.fTarget.instantiated with
  | none =>
    unfold RenderPassTask.addCommands at hc
    rw [htex] at hc
    simp [submissions] at hc
  | some tex =>
    rw [addCommands_eq_emit env task rd tex htex] at hc ⊢
    unfold RenderPassTask.emitWithTexture at hc ⊢
    by_cases hres :
        task.fRenderPassDesc.fColorResolveAttachment.fTextureInfo.isValid = true
    · rw [if_pos hres] at hc ⊢
      by_cases hok : task.fTarget.numSamples = 1 ∧
          task.fRenderPassDesc.fColorAttachment.fTextureInfo.numSamples > 1
      · rw [if_pos hok] at hc ⊢
        cases hfind : env.findOrCreateDiscardableMSAAAttachment
            task.fTarget.dimensions
            task.fRenderPassDesc.fColorAttachment.fTextureInfo with
        | none =>
          rw [hfind] at hc
          dsimp only at hc
          rw [submissions_replayEvent] at hc
          simp [submissions] at hc
        | some ca =>
          rw [hfind] at hc
          dsimp only at hc ⊢
          exact depthStencilStep_passthrough env task tex ca (some tex) _
            (by rw [submissions_replayEvent]; simp [submissions]) c hc
      · rw [if_neg hok] at hc
        rw [Prod.snd, submissions_replayEvent] at hc
        simp [submissions] at hc
    · rw [if_neg hres] at hc ⊢
      exact depthStencilStep_passthrough env task tex tex none _
        (by rw [submissions_replayEvent]; simp [submissions]) c hc

/-- C9 witness: the scenario-A emission submits one render pass and its
status is the recorder's verdict on it. -/
theorem addCommands_status_passthrough_witness :
    ((⟨[0], descSingleSampleNoResolve, proxyLive⟩ :
        RenderPassTask).addCommands envProvide rdMatch).1 =
      .done (if envProvide.addRenderPass ⟨descSingleSampleNoResolve, texA,
          none, none, SkRect.Make proxyLive.dimensions, [0]⟩
        then Status.kSuccess else Status.kFail) :=
  addCommands_status_passthrough envProvide
    ⟨[0], descSingleSampleNoResolve, proxyLive⟩ rdMatch
    ⟨descSingleSampleNoResolve, texA, none, none,
      SkRect.Make proxyLive.dimensions, [0]⟩ (by decide)

/-- C10: emission is not atomic with respect to the command recorder on
error: for every `addCommands` call on an instantiated target that returns
`kFail` without ever submitting a render pass (the attachment-acquisition
failures), the trace nonetheless begins with the replay-translation
mutation — the recorder was already set or cleared before the failure. -/
theorem addCommands_mutates_recorder_before_failure (env : EmitEnv)
    (task : RenderPassTask) (rd : ReplayTargetData) (tex : Texture)
    (htex : task.fTarget.instantiated = some tex)
    (hfail : (task.addCommands env rd).1 = .done .kFail)
    (hnosub : submissions (task.addCommands env rd).2 = []) :
    ((task.addCommands env rd).2).head? = some (replayEvent tex rd) ∧
    (replayEvent tex rd = .setReplayTranslation rd.fTranslation ∨
     replayEvent tex rd = .clearReplayTranslation) := by
  refine ⟨?_, replayEvent_cases tex rd⟩
  rw [addCommands_eq_emit env task rd tex htex]
  exact emitWithTexture_head env task rd tex

/-- C10 witness: a concrete emission whose discardable color attachment
cannot be obtained fails, yet its trace begins with the replay mutation. -/
theorem addCommands_mutates_recorder_before_failure_witness :
    (((⟨[0], descResolve, proxyLive⟩ :
        RenderPassTask).addCommands envAllFail rdMatch).2).head? =
      some (replayEvent texA rdMatch) ∧
    (replayEvent texA rdMatch = .setReplayTranslation rdMatch.fTranslation ∨
     replayEvent texA rdMatch = .clearReplayTranslation) :=
  addCommands_mutates_recorder_before_failure envAllFail
    ⟨[0], descResolve, proxyLive⟩ rdMatch texA rfl (by decide) (by decide)

end RenderPassModel
